import Mathlib

/-!
Verification of the PURE chart service (Express proxy for an astrology API).

The development shallowly embeds the JavaScript sources:
* `getTzOffsetHours` and the `POST /api/chart/western` handler of `server.js`
  (same code appears in the second variant of the repository),
* `callAstrologyApi` of the second variant,
* `normalizeBodies`, `normalizeHouses`, the in-memory cache and the cached
  `POST /api/chart/western` handler of the first variant.

JSON values are embedded as the inductive `JVal`; JavaScript `undefined` is a
separate constructor because default-destructuring and `??` distinguish it
from `null`.  Machine numbers are embedded as `ℚ` (the scripts only perform
exact small-magnitude arithmetic on them).  Platform facilities
(`Intl.DateTimeFormat` zone rendering, `JSON.parse`, number-to-string
formatting) are parameters of the corresponding definitions.
-/

namespace PureChart

/-- Embedding of JavaScript/JSON runtime values.  `undefined` is JavaScript
`undefined`; object fields are kept as an association list (later bindings
shadow earlier ones, matching `JSON.parse` duplicate-key behaviour). -/
inductive JVal where
  | undefined
  | null
  | bool (b : Bool)
  | num (q : ℚ)
  | str (s : String)
  | arr (xs : List JVal)
  | obj (fields : List (String × JVal))

/-- JavaScript truthiness of a value. -/
def truthy : JVal → Bool
  | .undefined => false
  | .null => false
  | .bool b => b
  | .num q => decide (q ≠ 0)
  | .str s => decide (s ≠ "")
  | .arr _ => true
  | .obj _ => true

/-- Is the value nullish (`undefined` or `null`)? -/
def isNullishV : JVal → Bool
  | .undefined => true
  | .null => true
  | _ => false

/-- Strict equality against the literal `null` (`v === null`). -/
def isNullV : JVal → Bool
  | .null => true
  | _ => false

/-- Strict equality against the literal `false` (`v === false`). -/
def isFalseLit : JVal → Bool
  | .bool false => true
  | _ => false

/-- Strict equality against the string literal `"false"` (`v === "false"`). -/
def isStrFalseLit : JVal → Bool
  | .str s => s == "false"
  | _ => false

/-- The JavaScript `||` operator: first operand if truthy, else second. -/
def jsOr (a b : JVal) : JVal :=
  if truthy a then a else b

/-- The JavaScript `??` operator: first operand unless nullish. -/
def jsNullish (a b : JVal) : JVal :=
  if isNullishV a then b else a

/-- Last binding of a key in an object's field list (later keys shadow),
`undefined` when the property is absent. -/
def lookupLast (fs : List (String × JVal)) (k : String) : JVal :=
  match fs with
  | [] => .undefined
  | (k', v) :: rest =>
    match lookupLast rest k with
    | .undefined => if k' == k then v else .undefined
    | v' => v'

/-- Property access `v.k` on a value already known to be non-nullish:
objects look the key up, primitives and arrays yield `undefined`. -/
def getT (v : JVal) (k : String) : JVal :=
  match v with
  | .obj fs => lookupLast fs k
  | _ => .undefined

/-- Optional-chained property access `v?.k`: nullish receivers give
`undefined` instead of a TypeError. -/
def getFq (v : JVal) (k : String) : JVal :=
  match v with
  | .undefined => .undefined
  | .null => .undefined
  | _ => getT v k

/-- Plain property access `v.k`; `none` models the TypeError thrown when the
receiver is nullish. -/
def getProp (v : JVal) (k : String) : Option JVal :=
  match v with
  | .undefined => none
  | .null => none
  | _ => some (getT v k)

/-- Destructuring default: `const x = v` with default `d` uses `d` only when
the bound value is `undefined`. -/
def dflt (v d : JVal) : JVal :=
  match v with
  | .undefined => d
  | _ => v

/-! ### Numbers, dates and parsing

`Math.round` and `Date.UTC` as used by `getTzOffsetHours`.  The scripts only
feed `Date.UTC` integral components, so the embedding works on `ℤ`
milliseconds; rationals appear once division by 60000/60 starts. -/

/-- JavaScript `Math.round`: half-way cases round towards positive
infinity. -/
def jsRound (q : ℚ) : ℤ := (q + 1 / 2).floor

/-- Days from the epoch 1970-01-01 of the proleptic Gregorian date
`(y, m, 1)` shifted by `d - 1` days; the civil-from-days algorithm used by
ECMAScript `MakeDay`.  Expects `1 ≤ m ≤ 12`; arbitrary `d`. -/
def daysFromCivil (y m d : ℤ) : ℤ :=
  let y2 := if m ≤ 2 then y - 1 else y
  let era := Int.fdiv y2 400
  let yoe := y2 - era * 400
  let mp := Int.emod (m + 9) 12
  let doy := (153 * mp + 2) / 5
  let doe := yoe * 365 + yoe / 4 - yoe / 100 + doy
  era * 146097 + doe - 719468 + (d - 1)

/-- The call `Date.UTC(y, monthIndex, d, hh, mm, ss)` in milliseconds since the epoch,
including the ECMAScript quirks: years 0–99 mean 1900–1999, and out-of-range
month index / day / time fields roll over. -/
def dateUTC (y mIdx d hh mm ss : ℤ) : ℤ :=
  let yr := if 0 ≤ y ∧ y ≤ 99 then y + 1900 else y
  let ym := yr + Int.fdiv mIdx 12
  let mo := Int.emod mIdx 12
  let days := daysFromCivil ym (mo + 1) d
  (((days * 24 + hh) * 60 + mm) * 60 + ss) * 1000

/-- ASCII digit test used by the embedded regexes and `parseInt`. -/
def isDigitC (c : Char) : Bool := 48 ≤ c.toNat && c.toNat ≤ 57

/-- Numeric value of a list of ASCII digits. -/
def digitsVal (ds : List Char) : ℤ :=
  ds.foldl (fun a c => a * 10 + ((c.toNat : ℤ) - 48)) 0

/-- The call `parseInt(s, 10)` restricted to the strings this service feeds it
(fragments of `YYYY-MM-DD` / `HH:MM` inputs): the leading run of ASCII
digits is parsed, and `none` models the `NaN` result when there is none. -/
def parseInt10 (s : String) : Option ℤ :=
  match s.toList.takeWhile isDigitC with
  | [] => none
  | ds => some (digitsVal ds)

/-- Splitting `s.split("-")` on the character level. -/
def splitDashAux : List Char → List Char → List (List Char)
  | [], acc => [acc.reverse]
  | c :: rest, acc =>
    if c == '-' then acc.reverse :: splitDashAux rest []
    else splitDashAux rest (c :: acc)

/-- JavaScript `s.split("-")`. -/
def splitDash (s : String) : List String :=
  (splitDashAux s.toList []).map (fun cs => String.mk cs)

/-- Splitting `s.split(":")` on the character level. -/
def splitColonAux : List Char → List Char → List (List Char)
  | [], acc => [acc.reverse]
  | c :: rest, acc =>
    if c == ':' then acc.reverse :: splitColonAux rest []
    else splitColonAux rest (c :: acc)

/-- JavaScript `s.split(":")`. -/
def splitColon (s : String) : List String :=
  (splitColonAux s.toList []).map (fun cs => String.mk cs)

/-- The destructuring `const [y, m, d] = dateISO.split("-").map(parseInt)`;
`none` models any `NaN` component (which would later make the `Date`
invalid and `formatToParts` throw). -/
def parseDateISO (s : String) : Option (ℤ × ℤ × ℤ) :=
  match (splitDash s).map parseInt10 with
  | oy :: om :: od :: _ => do
    let y ← oy
    let m ← om
    let d ← od
    pure (y, m, d)
  | _ => none

/-- The destructuring `const [hh, mm] = timeHHMM.split(":").map(parseInt)`. -/
def parseTimeHHMM (s : String) : Option (ℤ × ℤ) :=
  match (splitColon s).map parseInt10 with
  | oh :: om :: _ => do
    let h ← oh
    let m ← om
    pure (h, m)
  | _ => none

/-- The regex `^\d{4}-\d{2}-\d{2}$` of `isValidDateISO`. -/
def isValidDateISOStr (s : String) : Bool :=
  match s.toList with
  | [a, b, c, d, e, f, g, h, i, j] =>
    isDigitC a && isDigitC b && isDigitC c && isDigitC d && e == '-' &&
    isDigitC f && isDigitC g && h == '-' && isDigitC i && isDigitC j
  | _ => false

/-- The check `isValidDateISO`: a string matching `^\d{4}-\d{2}-\d{2}$`. -/
def isValidDateISO (v : JVal) : Bool :=
  match v with
  | .str s => isValidDateISOStr s
  | _ => false

/-- The regex `^\d{2}:\d{2}$` of `isValidTimeHHMM`. -/
def isValidTimeHHMMStr (s : String) : Bool :=
  match s.toList with
  | [a, b, c, d, e] =>
    isDigitC a && isDigitC b && c == ':' && isDigitC d && isDigitC e
  | _ => false

/-- The check `isValidTimeHHMM`: a string matching `^\d{2}:\d{2}$`. -/
def isValidTimeHHMM (v : JVal) : Bool :=
  match v with
  | .str s => isValidTimeHHMMStr s
  | _ => false

/-! ### The timezone offset resolver

`Intl.DateTimeFormat(..., { timeZone }).formatToParts` is the platform's
zone database; it is embedded as a map from the timezone value to an
optional rendering function (`none` models the RangeError thrown for an
unrecognized zone identifier).  A rendering function takes an instant in
epoch milliseconds to the already-`parseInt`-ed wall-clock fields. -/

/-- Wall-clock fields produced by `formatToParts` after the `parseInt`
calls of `getTzOffsetHours`. -/
structure RParts where
  year : ℤ
  month : ℤ
  day : ℤ
  hour : ℤ
  minute : ℤ
  second : ℤ

/-- A zone's rendering of instants (epoch ms) as wall-clock fields. -/
abbrev RenderFn := ℤ → RParts

/-- The platform zone database consulted by `new Intl.DateTimeFormat`:
`none` is the RangeError for an unrecognized timezone. -/
abbrev TzDb := JVal → Option RenderFn

/-- The resolver `getTzOffsetHours(dateISO, timeHHMM, timeZone)` from `server.js` (the
identical function appears in the second variant): build a naive UTC
instant from the fields, render it in the zone, re-read the rendered
fields as UTC, and round the difference in hours to two decimals.
`none` models a thrown RangeError (unrecognized zone, or invalid date from
`NaN` components). -/
def getTzOffsetHours (tzdb : TzDb) (dateISO timeHHMM : String)
    (timeZone : JVal) : Option ℚ :=
  match parseDateISO dateISO, parseTimeHHMM timeHHMM with
  | some (y, m, d), some (hh, mm) =>
    let utcGuess := dateUTC y (m - 1) d hh mm 0
    match tzdb timeZone with
    | none => none
    | some render =>
      let p := render utcGuess
      let localAsUTC := dateUTC p.year (p.month - 1) p.day p.hour p.minute p.second
      let offsetMinutes : ℚ := ((localAsUTC - utcGuess : ℤ) : ℚ) / 60000
      some ((jsRound (offsetMinutes / 60 * 100) : ℚ) / 100)
  | _, _ => none

/-- The spec's description of the resolver, stated in its own words on the
date/time fields: "build a naive UTC instant from the date/time fields,
render that instant's wall-clock fields in the target zone, re-read those
rendered fields as UTC to get a second instant, take (second instant minus
naive instant) in minutes, convert to hours, and round to exactly 2
decimal places". -/
def specResolveOffsetHours (render : RenderFn) (y m d hh mm : ℤ) : ℚ :=
  let naive := dateUTC y (m - 1) d hh mm 0
  let p := render naive
  let second := dateUTC p.year (p.month - 1) p.day p.hour p.minute p.second
  let minutes : ℚ := ((second - naive : ℤ) : ℚ) / 60000
  let hours := minutes / 60
  (jsRound (hours * 100) : ℚ) / 100

/-! ### The response normalizer (first variant)

`normalizeBodies` and `normalizeHouses` of the cached-service variant.
Accesses that JavaScript would abort with a TypeError (property access on a
nullish value, calling `.map` on a non-array) are modelled by `Option`
results; the route's `catch` turns such a failure into a 502 response. -/

/-- The test `hay.includes(needle)` on character lists: does `needle` occur as a
contiguous substring? -/
def startsWithL : List Char → List Char → Bool
  | [], _ => true
  | _ :: _, [] => false
  | n :: ns, h :: hs => n == h && startsWithL ns hs

/-- Substring occurrence used to embed `String.prototype.includes`. -/
def containsL (needle hay : List Char) : Bool :=
  match hay with
  | [] => startsWithL needle []
  | _ :: rest => startsWithL needle hay || containsL needle rest

/-- JavaScript `s.includes(t)`. -/
def strIncludes (s t : String) : Bool :=
  containsL t.toList s.toList

/-- ASCII lower-casing; the planet names the service inspects are ASCII, so
this models `String.prototype.toLowerCase` on them. -/
def asciiLowerC (c : Char) : Char :=
  if 65 ≤ c.toNat ∧ c.toNat ≤ 90 then Char.ofNat (c.toNat + 32) else c

/-- Lower-casing `s.toLowerCase()` for ASCII strings. -/
def asciiLower (s : String) : String :=
  String.mk (s.toList.map asciiLowerC)

/-- The alias table of `normalizeBodies`: the four successive `if`
statements reassigning `name`, with every condition evaluated on the
lower-cased original name. -/
def canonicalizeName (s : String) : String :=
  let lower := asciiLower s
  let n1 := if strIncludes lower "rahu" || strIncludes lower "north" then "NorthNode" else s
  let n2 := if strIncludes lower "ketu" || strIncludes lower "south" then "SouthNode" else n1
  let n3 := if strIncludes lower "chiron" then "Chiron" else n2
  if strIncludes lower "lilith" || strIncludes lower "black" then "Lilith" else n3

/-- One entry of the normalizer's body output (the object built by `push`). -/
structure NormBody where
  name : String
  sign : JVal
  house : JVal
  degree : JVal
  retro : Bool


/-- The `planets || planet_positions || objects || []` fallback locating the
upstream planet list. -/
def planetListVal (raw : JVal) : JVal :=
  jsOr (jsOr (jsOr (getFq raw "planets") (getFq raw "planet_positions"))
    (getFq raw "objects")) (.arr [])

/-- The `name || planet || object` fallback naming a body (receiver known
truthy). -/
def bodyNameVal (p : JVal) : JVal :=
  jsOr (jsOr (getT p "name") (getT p "planet")) (getT p "object")

/-- The object pushed by `push(name, obj)` inside `normalizeBodies`. -/
def mkNormBody (nm : String) (p : JVal) : NormBody :=
  { name := nm
    sign := jsOr (jsOr (jsOr (getT p "sign") (getT p "zodiac_sign"))
      (getT p "sign_name")) .null
    house := jsOr (jsOr (getT p "house") (getT p "house_number")) .null
    degree := jsNullish (jsNullish (jsNullish (getT p "degree")
      (getT p "full_degree")) (getT p "longitude")) .null
    retro := truthy (jsOr (jsOr (getT p "is_retro") (getT p "retrograde"))
      (.bool false)) }

/-- The `for (const p of planetList)` loop of `normalizeBodies`: skip falsy
entries, skip entries with a falsy name, canonicalize and push the rest.
`none` models the TypeError of `name.toLowerCase()` when the name fallback
produced a truthy non-string. -/
def buildBodies : List JVal → Option (List NormBody)
  | [] => some []
  | p :: rest =>
    if truthy p then
      match bodyNameVal p with
      | .str s =>
        if truthy (.str s) then
          (buildBodies rest).map (fun bs => mkNormBody (canonicalizeName s) p :: bs)
        else buildBodies rest
      | nv => if truthy nv then none else buildBodies rest
    else buildBodies rest

/-- The `unique` map of `normalizeBodies`: keep only the first occurrence of
each name, preserving insertion order (a JavaScript `Map` iterates in
insertion order). -/
def dedupBodies (acc : List NormBody) : List NormBody → List NormBody
  | [] => acc
  | b :: rest =>
    if acc.any (fun x => x.name == b.name) then dedupBodies acc rest
    else dedupBodies (acc ++ [b]) rest

/-- The normalizer `normalizeBodies(raw)`: the planet-list fallback, the per-body loop when
the located value is an array, and first-occurrence deduplication. -/
def normalizeBodies (raw : JVal) : Option (List NormBody) :=
  match planetListVal raw with
  | .arr ps => (buildBodies ps).map (dedupBodies [])
  | _ => some (dedupBodies [] [])

/-- One entry of the normalizer's houses output. -/
structure NormHouse where
  house : JVal
  sign : JVal
  start_degree : JVal
  end_degree : JVal


/-- The object built for one upstream house entry (receiver known
non-nullish). -/
def mkNormHouse (h : JVal) : NormHouse :=
  { house := jsOr (jsOr (getT h "house") (getT h "house_number")) .null
    sign := jsOr (jsOr (getT h "sign") (getT h "zodiac_sign")) .null
    start_degree := jsNullish (jsNullish (getT h "start_degree")
      (getT h "start")) .null
    end_degree := jsNullish (jsNullish (getT h "end_degree")
      (getT h "end")) .null }

/-- The mapping step of one house entry; `none` is the TypeError of
`h.house` on a nullish element. -/
def mkHouseOpt (h : JVal) : Option NormHouse :=
  match h with
  | .undefined => none
  | .null => none
  | _ => some (mkNormHouse h)

/-- The `list.map(...)` pass over the house entries, with TypeError propagation. -/
def mapHouses : List JVal → Option (List NormHouse)
  | [] => some []
  | h :: rest =>
    match mkHouseOpt h with
    | none => none
    | some nh => (mapHouses rest).map (fun hs => nh :: hs)

/-- The normalizer `normalizeHouses(raw)`: `raw?.houses || []`, map each entry through the
field fallbacks, and keep exactly the entries whose mapped `house` is not
`null`.  A truthy non-array `houses` value has no `.map`, a TypeError. -/
def normalizeHouses (raw : JVal) : Option (List NormHouse) :=
  match jsOr (getFq raw "houses") (.arr []) with
  | .arr hs => (mapHouses hs).map (fun l => l.filter (fun nh => !(isNullV nh.house)))
  | _ => none

/-! ### The `POST /api/chart/western` handler of `server.js`

The upstream HTTP exchange is embedded as an oracle: a list of responses
the axios call consumes from (`validateStatus: () => true` makes axios
resolve for every status).  The handler returns the route's response
together with the list of payloads actually sent upstream, so "how many
upstream calls were made and with what body" is observable; `none` means
the oracle ran out of responses. -/

/-- The JSON payload `{ day, month, year, hour, min, lat, lon, tzone }`
sent to the astrology API. -/
structure Payload where
  day : ℤ
  month : ℤ
  year : ℤ
  hour : ℤ
  min : ℤ
  lat : ℚ
  lon : ℚ
  tzone : ℚ

/-- One upstream HTTP response as axios delivers it. -/
structure UpResp where
  status : ℤ
  data : JVal

/-- The possible responses of the `server.js` western-chart route, one
constructor per `res.status(...).json(...)` site (errors thrown inside the
`try` all reach the final `catch`, which always answers 500). -/
inductive WResult where
  | envMissing (name : String)
  | badDate
  | badTime
  | badCoords
  | upstreamHttpFail (status : ℤ) (response : JVal)
  | upstreamRejected (data : JVal)
  | success (chart : JVal) (name date time : JVal) (latitude longitude : ℚ)
      (timezone : JVal) (tzone : ℚ)
  | serverError

/-- HTTP status attached to each response of the `server.js` route. -/
def statusOfW : WResult → ℤ
  | .envMissing _ => 500
  | .badDate => 400
  | .badTime => 400
  | .badCoords => 400
  | .upstreamHttpFail _ _ => 502
  | .upstreamRejected _ => 502
  | .success _ _ _ _ _ _ _ _ => 200
  | .serverError => 500

/-- The ternary choosing the `tzone` payload field:
`typeof tz_offset === "number" ? tz_offset : getTzOffsetHours(...)`. -/
def resolveTzone (tzdb : TzDb) (tzOffset : JVal) (ds ts : String)
    (timezone : JVal) : Option ℚ :=
  match tzOffset with
  | .num q => some q
  | _ => getTzOffsetHours tzdb ds ts timezone

/-- The whole `POST /api/chart/western` handler of `server.js`: env checks,
destructuring with defaults, validation, date/time field extraction, the
`tz_offset` override, the upstream call, and the three response branches on
the upstream result.  Returns the route response paired with the payloads
sent upstream. -/
def westernHandler (tzdb : TzDb) (userId apiKey : Option String)
    (upstream : List UpResp) (reqBody : JVal) :
    Option (WResult × List Payload) :=
  if !(truthy (match userId with | some u => .str u | none => .undefined)) then
    some (.envMissing "ASTROLOGY_API_USER_ID", [])
  else if !(truthy (match apiKey with | some k => .str k | none => .undefined)) then
    some (.envMissing "ASTROLOGY_API_KEY", [])
  else
    let b := jsOr reqBody (.obj [])
    let nameV := dflt (getT b "name") (.str "")
    let dateV := getT b "date"
    let timeV := getT b "time"
    let latV := getT b "latitude"
    let lonV := getT b "longitude"
    let tzV := dflt (getT b "timezone") (.str "Europe/Amsterdam")
    let tzOffsetV := getT b "tz_offset"
    if !(isValidDateISO dateV) then some (.badDate, [])
    else if !(isValidTimeHHMM timeV) then some (.badTime, [])
    else
      match latV, lonV with
      | .num la, .num lo =>
        match dateV, timeV with
        | .str ds, .str ts =>
          match parseDateISO ds, parseTimeHHMM ts with
          | some (year, month, day), some (hour, min) =>
            match resolveTzone tzdb tzOffsetV ds ts tzV with
            | none => some (.serverError, [])
            | some tzq =>
              let payload : Payload :=
                { day := day, month := month, year := year, hour := hour,
                  min := min, lat := la, lon := lo, tzone := tzq }
              match upstream with
              | [] => none
              | r :: _ =>
                if r.status < 200 ∨ 300 ≤ r.status then
                  some (.upstreamHttpFail r.status r.data, [payload])
                else if truthy r.data && isFalseLit (getT r.data "status") then
                  some (.upstreamRejected r.data, [payload])
                else
                  some (.success r.data nameV dateV timeV la lo tzV tzq, [payload])
          | _, _ => some (.serverError, [])
        | _, _ => some (.serverError, [])
      | _, _ => some (.badCoords, [])

/-! ### `callAstrologyApi` of the second variant

`fetch` is embedded as the response it delivered (status plus raw body
text); `JSON.parse` is a platform parameter returning `none` exactly on
text that is not valid structured data. -/

/-- A `fetch` response: HTTP status and the raw body text. -/
structure FetchResp where
  status : ℤ
  text : String

/-- The flag `res.ok`: status in the inclusive range 200–299. -/
def fetchOk (r : FetchResp) : Bool :=
  200 ≤ r.status && r.status ≤ 299

/-- Outcome of `callAstrologyApi`: the two thrown 502 errors (with their
`details`) or the returned data. -/
inductive ApiResult where
  | httpFail (status : ℤ) (response : JVal)
  | rejected (data : JVal)
  | ok (data : JVal)

/-- The `err.statusCode` carried by the `callAstrologyApi` outcomes (the
route's catch answers with `e.statusCode || 500`; a successful call has
status 200). -/
def apiStatusOf : ApiResult → ℤ
  | .httpFail _ _ => 502
  | .rejected _ => 502
  | .ok _ => 200

/-- The helper `callAstrologyApi` of the second variant after the `fetch` resolved:
parse the body text, falling back to `{ raw: text }` when `JSON.parse`
throws; non-`ok` statuses and in-band `status: false / "false"` rejections
become 502 errors carrying the upstream status and body. -/
def callAstrologyApi (jsonParse : String → Option JVal) (r : FetchResp) :
    ApiResult :=
  let data :=
    match jsonParse r.text with
    | some d => d
    | none => .obj [("raw", .str r.text)]
  if !(fetchOk r) then .httpFail r.status data
  else if truthy data &&
      (isFalseLit (getT data "status") || isStrFalseLit (getT data "status")) then
    .rejected data
  else .ok data

/-! ### The cached `POST /api/chart/western` route (first variant)

The in-memory `Map` cache, its 30-day TTL, the cache key template and the
route around `normalizeBodies` / `normalizeHouses`.  Number formatting in
the template literal is a platform parameter (`numToStr`); every other part
of JavaScript string conversion is embedded. -/

/-- String conversion used by the cache-key template literal; array
elements convert recursively with nullish elements rendered empty
(`Array.prototype.join`). -/
def jsToString (numToStr : ℚ → String) : JVal → String
  | .undefined => "undefined"
  | .null => "null"
  | .bool true => "true"
  | .bool false => "false"
  | .num q => numToStr q
  | .str s => s
  | .arr xs => jsArrToString numToStr xs
  | .obj _ => "[object Object]"
where
  /-- Array stringification: `Array.prototype.toString` = `join(",")`. -/
  jsArrToString (numToStr : ℚ → String) : List JVal → String
  | [] => ""
  | [x] => if isNullishV x then "" else jsToString numToStr x
  | x :: y :: rest =>
    (if isNullishV x then "" else jsToString numToStr x) ++ "," ++
      jsArrToString numToStr (y :: rest)

/-- The constant `CACHE_TTL_MS = 1000 * 60 * 60 * 24 * 30` (30 days). -/
def CACHE_TTL_MS : ℤ := 1000 * 60 * 60 * 24 * 30

/-- The key builder `makeCacheKey(birth, houseType)`: the template
`` `${day}-${month}-${year}-${hour}-${min}-${lat}-${lon}-${tzone}-${houseType}` ``
over the destructured birth fields. -/
def makeCacheKey (numToStr : ℚ → String) (birth houseType : JVal) : String :=
  jsToString numToStr (getT birth "day") ++ "-" ++
  jsToString numToStr (getT birth "month") ++ "-" ++
  jsToString numToStr (getT birth "year") ++ "-" ++
  jsToString numToStr (getT birth "hour") ++ "-" ++
  jsToString numToStr (getT birth "min") ++ "-" ++
  jsToString numToStr (getT birth "lat") ++ "-" ++
  jsToString numToStr (getT birth "lon") ++ "-" ++
  jsToString numToStr (getT birth "tzone") ++ "-" ++
  jsToString numToStr houseType

/-- The `clean` object assembled by the cached route on upstream success. -/
structure Clean where
  name : JVal
  birth : JVal
  bodies : List NormBody
  houses : List NormHouse
  aspects : JVal

/-- A cache entry `{ savedAt, data }`. -/
structure CacheEntry where
  savedAt : ℤ
  data : Clean

/-- The in-memory `Map` keyed by cache-key strings, in insertion order. -/
abbrev Cache := List (String × CacheEntry)

/-- Lookup `cache.get(k)`. -/
def cacheGet : Cache → String → Option CacheEntry
  | [], _ => none
  | (k', v) :: rest, k => if k' == k then some v else cacheGet rest k

/-- Update `cache.set(k, v)`: overwrite in place, else append (a JavaScript `Map`
keeps the original insertion position on overwrite). -/
def cacheSet : Cache → String → CacheEntry → Cache
  | [], k, v => [(k, v)]
  | (k', v') :: rest, k, v =>
    if k' == k then (k, v) :: rest else (k', v') :: cacheSet rest k v

/-- The spread `{...birth, house_type}` for a `birth` that passed the required-field
check (hence an object in the JSON domain). -/
def spreadBirth (birth houseType : JVal) : JVal :=
  match birth with
  | .obj fs => .obj (fs ++ [("house_type", houseType)])
  | _ => .obj [("house_type", houseType)]

/-- The `required` field list checked by the cached route, in order. -/
def requiredFields : List String :=
  ["day", "month", "year", "hour", "min", "lat", "lon", "tzone"]

/-- The first field `f` with `birth[f] === undefined || birth[f] === null`,
if any. -/
def firstMissing (birth : JVal) : Option String :=
  requiredFields.find? (fun f => isNullishV (getT birth f))

/-- The responses of the cached route, one constructor per answer site.
`upstreamFailed` is the catch with `err?.response?.data || err.message`
(an axios non-2xx rejection or a TypeError out of the normalizers). -/
inductive CResult where
  | credsMissing
  | birthMissing
  | fieldMissing (f : String)
  | served (data : Clean) (cached : Bool)
  | upstreamFailed (details : JVal)

/-- HTTP status of each cached-route response. -/
def statusOfC : CResult → ℤ
  | .credsMissing => 500
  | .birthMissing => 400
  | .fieldMissing _ => 400
  | .served _ _ => 200
  | .upstreamFailed _ => 502

/-- The cached `POST /api/chart/western` handler: credential check, birth
checks, cache lookup with the 30-day TTL, the upstream axios call (an
oracle of `Except` outcomes: `Except.error` is a rejected promise whose
`err?.response?.data || err.message` is the carried value), normalization
and cache write-back.  Returns the response, the updated cache and the
number of upstream calls made; `none` means the oracle ran dry. -/
def westernCached (numToStr : ℚ → String) (userId apiKey : Option String)
    (now : ℤ) (upstream : List (Except JVal JVal)) (cache : Cache)
    (reqBody : JVal) : Option (CResult × Cache × ℕ) :=
  if !(truthy (match userId with | some u => .str u | none => .undefined)) ||
     !(truthy (match apiKey with | some k => .str k | none => .undefined)) then
    some (.credsMissing, cache, 0)
  else
    let nameV := getT reqBody "name"
    let birth := getT reqBody "birth"
    let houseType := dflt (getT reqBody "house_type") (.str "placidus")
    if !(truthy birth) then some (.birthMissing, cache, 0)
    else
      match firstMissing birth with
      | some f => some (.fieldMissing f, cache, 0)
      | none =>
        let ck := makeCacheKey numToStr birth houseType
        let miss : Option (CResult × Cache × ℕ) :=
          match upstream with
          | [] => none
          | .error details :: _ => some (.upstreamFailed details, cache, 1)
          | .ok raw :: _ =>
            match normalizeBodies raw, normalizeHouses raw with
            | some bs, some hs =>
              let clean : Clean :=
                { name := jsOr nameV .null
                  birth := spreadBirth birth houseType
                  bodies := bs
                  houses := hs
                  aspects := jsOr (getFq raw "aspects") (.arr []) }
              some (.served clean false,
                cacheSet cache ck { savedAt := now, data := clean }, 1)
            | _, _ => some (.upstreamFailed (.str "TypeError"), cache, 1)
        match cacheGet cache ck with
        | some e =>
          if now - e.savedAt < CACHE_TTL_MS then some (.served e.data true, cache, 0)
          else miss
        | none => miss

/-! ### Concrete model instances used by witnesses

A fixed-offset rendering function and a one-zone database; the witnesses
only need some recognized zone, not the real tz database. -/

/-- A rendering that always shows the instant two hours ahead of the naive
1981-10-17 08:55 reading (enough for witnesses probing that instant). -/
def amsRender : RenderFn := fun _ =>
  { year := 1981, month := 10, day := 17, hour := 10, minute := 55, second := 0 }

/-- A zone database recognizing only `Europe/Amsterdam`. -/
def amsTzdb : TzDb := fun v =>
  match v with
  | .str "Europe/Amsterdam" => some amsRender
  | _ => none

/-- A parse function rejecting every body: `JSON.parse` as seen on texts
that are not valid structured data. -/
def jsonParseNone : String → Option JVal := fun _ => none

end PureChart

namespace PureChart

/-! ## Helper lemmas -/

theorem digit_ne_dash {c : Char} (h : isDigitC c = true) : (c == '-') = false := by
  by_contra hc
  rw [Bool.not_eq_false, beq_iff_eq] at hc
  subst hc
  exact absurd h (by decide)

theorem digit_ne_colon {c : Char} (h : isDigitC c = true) : (c == ':') = false := by
  by_contra hc
  rw [Bool.not_eq_false, beq_iff_eq] at hc
  subst hc
  exact absurd h (by decide)

theorem validDate_parses {s : String} (h : isValidDateISOStr s = true) :
    ∃ y m d, parseDateISO s = some (y, m, d) := by
  unfold isValidDateISOStr at h
  split at h
  case h_2 => exact absurd h (by simp)
  case h_1 a b c d e f g h2 i j heq =>
    simp only [Bool.and_eq_true, beq_iff_eq] at h
    obtain ⟨⟨⟨⟨⟨⟨⟨⟨⟨ha, hb⟩, hc⟩, hd⟩, he⟩, hf⟩, hg⟩, hh2⟩, hi⟩, hj⟩ := h
    subst he
    subst hh2
    refine ⟨digitsVal [a, b, c, d], digitsVal [f, g], digitsVal [i, j], ?_⟩
    unfold parseDateISO splitDash
    rw [heq]
    simp only [splitDashAux, digit_ne_dash ha, digit_ne_dash hb, digit_ne_dash hc,
      digit_ne_dash hd, digit_ne_dash hf, digit_ne_dash hg, digit_ne_dash hi,
      digit_ne_dash hj, beq_self_eq_true, if_true, if_false, Bool.false_eq_true,
      List.reverse_nil, List.reverse_cons, List.nil_append, List.cons_append,
      List.map_cons, List.map_nil]
    simp only [parseInt10, String.toList, String.mk, List.takeWhile, ha, hb, hc, hd,
      hf, hg, hi, hj, if_true]
    rfl

theorem validTime_parses {s : String} (h : isValidTimeHHMMStr s = true) :
    ∃ hh mm, parseTimeHHMM s = some (hh, mm) := by
  unfold isValidTimeHHMMStr at h
  split at h
  case h_2 => exact absurd h (by simp)
  case h_1 a b c d e heq =>
    simp only [Bool.and_eq_true, beq_iff_eq] at h
    obtain ⟨⟨⟨⟨ha, hb⟩, hc⟩, hd⟩, he⟩ := h
    subst hc
    refine ⟨digitsVal [a, b], digitsVal [d, e], ?_⟩
    unfold parseTimeHHMM splitColon
    rw [heq]
    simp only [splitColonAux, digit_ne_colon ha, digit_ne_colon hb, digit_ne_colon hd,
      digit_ne_colon he, beq_self_eq_true, if_true, if_false, Bool.false_eq_true,
      List.reverse_nil, List.reverse_cons, List.nil_append, List.cons_append,
      List.map_cons, List.map_nil]
    simp only [parseInt10, String.toList, String.mk, List.takeWhile, ha, hb, hd, he,
      if_true]
    rfl

theorem truthy_str_of_ne {s : String} (h : s ≠ "") : truthy (.str s) = true := by
  simp [truthy, h]

/-- Evaluation of the `server.js` western route on a request that passes
validation and whose `tzone` resolves, with the upstream oracle holding at
least one response: exactly one payload is sent and the response is
determined by the first upstream response. -/
theorem westernHandler_eval (tzdb : TzDb) (u k : String) (hu : u ≠ "")
    (hk : k ≠ "") (r : UpResp) (rest : List UpResp) (reqBody : JVal)
    (ds ts : String) (la lo tzq : ℚ)
    (hdate : getT (jsOr reqBody (.obj [])) "date" = .str ds)
    (hds : isValidDateISOStr ds = true)
    (htime : getT (jsOr reqBody (.obj [])) "time" = .str ts)
    (hts : isValidTimeHHMMStr ts = true)
    (hlat : getT (jsOr reqBody (.obj [])) "latitude" = .num la)
    (hlon : getT (jsOr reqBody (.obj [])) "longitude" = .num lo)
    (htzq : resolveTzone tzdb (getT (jsOr reqBody (.obj [])) "tz_offset") ds ts
      (dflt (getT (jsOr reqBody (.obj [])) "timezone") (.str "Europe/Amsterdam")) =
      some tzq) :
    ∃ year month day hour min,
      parseDateISO ds = some (year, month, day) ∧
      parseTimeHHMM ts = some (hour, min) ∧
      westernHandler tzdb (some u) (some k) (r :: rest) reqBody =
        some
          ((if r.status < 200 ∨ 300 ≤ r.status then
              .upstreamHttpFail r.status r.data
            else if truthy r.data && isFalseLit (getT r.data "status") then
              .upstreamRejected r.data
            else
              .success r.data (dflt (getT (jsOr reqBody (.obj [])) "name") (.str ""))
                (.str ds) (.str ts) la lo
                (dflt (getT (jsOr reqBody (.obj [])) "timezone")
                  (.str "Europe/Amsterdam")) tzq),
            [{ day := day, month := month, year := year, hour := hour, min := min,
               lat := la, lon := lo, tzone := tzq }]) := by
  obtain ⟨y, m, d, hp⟩ := validDate_parses hds
  obtain ⟨hh, mm, hq⟩ := validTime_parses hts
  refine ⟨y, m, d, hh, mm, hp, hq, ?_⟩
  unfold westernHandler
  simp only [truthy_str_of_ne hu, truthy_str_of_ne hk, hdate, htime, hlat, hlon,
    isValidDateISO, hds, isValidTimeHHMM, hts, hp, hq, htzq, Bool.not_true,
    Bool.false_eq_true, if_false, reduceCtorEq]
  split
  · rfl
  · split <;> rfl

/-- Deduplication appends a subsequence of its input after the
accumulator. -/
theorem dedupBodies_sublist (l : List NormBody) :
    ∀ acc, ∃ dl, dedupBodies acc l = acc ++ dl ∧ dl.Sublist l := by
  induction l with
  | nil => exact fun acc => ⟨[], by simp [dedupBodies], List.Sublist.refl []⟩
  | cons b rest ih =>
    intro acc
    by_cases hb : acc.any (fun x => x.name == b.name) = true
    · obtain ⟨dl, hdl, hsub⟩ := ih acc
      exact ⟨dl, by simp [dedupBodies, hb, hdl], hsub.cons b⟩
    · obtain ⟨dl, hdl, hsub⟩ := ih (acc ++ [b])
      refine ⟨b :: dl, ?_, hsub.cons₂ b⟩
      simp only [dedupBodies, hb, if_false, Bool.false_eq_true]
      rw [hdl, List.append_assoc]
      rfl

/-- Deduplication keeps names pairwise distinct. -/
theorem dedupBodies_pairwise (l : List NormBody) :
    ∀ acc, acc.Pairwise (fun a b => a.name ≠ b.name) →
      (dedupBodies acc l).Pairwise (fun a b => a.name ≠ b.name) := by
  induction l with
  | nil => exact fun acc h => h
  | cons b rest ih =>
    intro acc hacc
    by_cases hb : acc.any (fun x => x.name == b.name) = true
    · simpa [dedupBodies, hb] using ih acc hacc
    · have hnotin : ∀ x ∈ acc, x.name ≠ b.name := by
        intro x hx
        simp only [List.any_eq_true, not_exists, not_and, Bool.not_eq_true] at hb
        intro hxe
        have := hb x hx
        rw [hxe] at this
        simp at this
      have : (acc ++ [b]).Pairwise (fun a b => a.name ≠ b.name) := by
        rw [List.pairwise_append]
        exact ⟨hacc, List.pairwise_singleton _ b, by
          intro x hx y hy
          rw [List.mem_singleton] at hy
          subst hy
          exact hnotin x hx⟩
      simpa [dedupBodies, hb] using ih (acc ++ [b]) this

theorem find?_append_single (p : NormBody → Bool) (b : NormBody) :
    ∀ acc : List NormBody, (acc ++ [b]).find? p =
      match acc.find? p with
      | some x => some x
      | none => if p b then some b else none := by
  intro acc
  induction acc with
  | nil => cases hpb : p b <;> simp [List.find?, hpb]
  | cons a rest ih => cases ha : p a <;> simp [List.find?, ha, ih]

/-- The first entry with a given name survives deduplication as the first
entry with that name of the output. -/
theorem dedupBodies_find? (n : String) (l : List NormBody) :
    ∀ acc, (dedupBodies acc l).find? (fun x => x.name == n) =
      if acc.any (fun x => x.name == n) then acc.find? (fun x => x.name == n)
      else l.find? (fun x => x.name == n) := by
  induction l with
  | nil =>
    intro acc
    by_cases h : acc.any (fun x => x.name == n) = true
    · simp [dedupBodies, h]
    · rw [Bool.not_eq_true] at h
      simp only [dedupBodies, h, if_false, Bool.false_eq_true, List.find?_nil]
      rw [List.find?_eq_none]
      intro x hx
      simp only [List.any_eq_false] at h
      exact h x hx
  | cons b rest ih =>
    intro acc
    by_cases hb : acc.any (fun x => x.name == b.name) = true
    · rw [show dedupBodies acc (b :: rest) = dedupBodies acc rest by
        simp [dedupBodies, hb], ih acc]
      by_cases hq : acc.any (fun x => x.name == n) = true
      · simp [hq]
      · rw [Bool.not_eq_true] at hq
        simp only [hq, if_false, Bool.false_eq_true]
        have hbn : (b.name == n) = false := by
          by_contra hc
          rw [Bool.not_eq_false, beq_iff_eq] at hc
          subst hc
          simp only [List.any_eq_false] at hq
          simp only [List.any_eq_true] at hb
          obtain ⟨x, hx, hxb⟩ := hb
          exact absurd hxb (by simp [hq x hx])
        rw [List.find?_cons_of_neg _ (by simp [hbn])]
    · rw [show dedupBodies acc (b :: rest) = dedupBodies (acc ++ [b]) rest by
        simp [dedupBodies, hb], ih (acc ++ [b])]
      by_cases hq : acc.any (fun x => x.name == n) = true
      · have hq' : (acc ++ [b]).any (fun x => x.name == n) = true := by
          simp only [List.any_append, hq, Bool.true_or]
        rw [if_pos hq', if_pos hq, find?_append_single]
        simp only [List.any_eq_true] at hq
        obtain ⟨x, hx, hxq⟩ := hq
        have : acc.find? (fun x => x.name == n) ≠ none := by
          rw [Ne, List.find?_eq_none]
          intro hall
          exact absurd hxq (by simp [hall x hx])
        obtain ⟨w, hw⟩ := Option.ne_none_iff_exists'.mp this
        rw [hw]
      · rw [Bool.not_eq_true] at hq
        by_cases hbq : (b.name == n) = true
        · have hq' : (acc ++ [b]).any (fun x => x.name == n) = true := by
            simp [List.any_append, hbq]
          rw [if_pos hq', if_neg (by simp [hq]), find?_append_single]
          have hfn : acc.find? (fun x => x.name == n) = none := by
            rw [List.find?_eq_none]
            intro x hx
            simp only [List.any_eq_false] at hq
            exact hq x hx
          simp only [hfn, hbq, if_true]
          simp [List.find?, hbq]
        · rw [Bool.not_eq_true] at hbq
          have hq' : (acc ++ [b]).any (fun x => x.name == n) = false := by
            simp [List.any_append, hq, hbq]
          rw [if_neg (by simp [hq']), if_neg (by simp [hq]),
            List.find?_cons_of_neg _ (by simp [hbq])]

/-- A list with pairwise-distinct names holds at most one entry of any
name. -/
theorem filter_name_length_le_one (n : String) (l : List NormBody)
    (hpw : l.Pairwise (fun a b => a.name ≠ b.name)) :
    (l.filter (fun x => x.name == n)).length ≤ 1 := by
  induction l with
  | nil => simp
  | cons a rest ih =>
    rw [List.pairwise_cons] at hpw
    obtain ⟨ha, hrest⟩ := hpw
    by_cases hq : (a.name == n) = true
    · have hnil : rest.filter (fun x => x.name == n) = [] := by
        rw [List.filter_eq_nil_iff]
        intro x hx
        rw [beq_iff_eq] at hq
        simp only [Bool.not_eq_true, beq_eq_false_iff_ne]
        intro hxn
        exact ha x hx (by rw [hq, hxn])
      simp [List.filter_cons, hq, hnil]
    · rw [Bool.not_eq_true] at hq
      simpa [List.filter_cons, hq] using ih hrest

/-! ## Claims -/

/-- C1: for every syntactically valid date (YYYY-MM-DD), time (HH:MM) and
recognized timezone, `getTzOffsetHours` returns exactly the value the spec
describes: naive UTC instant from the fields, rendered in the zone,
re-read as UTC, difference in minutes converted to hours, rounded to two
decimal places. -/
theorem getTzOffsetHours_meets_spec (tzdb : TzDb) (ds ts : String) (tz : JVal)
    (render : RenderFn) (htz : tzdb tz = some render)
    (hd : isValidDateISOStr ds = true) (ht : isValidTimeHHMMStr ts = true) :
    ∃ y m d hh mm,
      parseDateISO ds = some (y, m, d) ∧ parseTimeHHMM ts = some (hh, mm) ∧
      getTzOffsetHours tzdb ds ts tz =
        some (specResolveOffsetHours render y m d hh mm) := by
  obtain ⟨y, m, d, hp⟩ := validDate_parses hd
  obtain ⟨hh, mm, hq⟩ := validTime_parses ht
  refine ⟨y, m, d, hh, mm, hp, hq, ?_⟩
  unfold getTzOffsetHours specResolveOffsetHours
  rw [hp, hq, htz]

/-- C2: every valid request supplying a numeric `tz_offset` sends exactly
that value as the upstream payload's `tzone`, and `getTzOffsetHours` is not
invoked: the whole outcome is independent of the zone database. -/
theorem numeric_tz_offset_overrides (tzdb tzdb' : TzDb) (u k : String)
    (hu : u ≠ "") (hk : k ≠ "") (r : UpResp) (rest : List UpResp)
    (reqBody : JVal) (ds ts : String) (la lo q : ℚ)
    (hdate : getT (jsOr reqBody (.obj [])) "date" = .str ds)
    (hds : isValidDateISOStr ds = true)
    (htime : getT (jsOr reqBody (.obj [])) "time" = .str ts)
    (hts : isValidTimeHHMMStr ts = true)
    (hlat : getT (jsOr reqBody (.obj [])) "latitude" = .num la)
    (hlon : getT (jsOr reqBody (.obj [])) "longitude" = .num lo)
    (htz : getT (jsOr reqBody (.obj [])) "tz_offset" = .num q) :
    (∃ res pl,
      westernHandler tzdb (some u) (some k) (r :: rest) reqBody =
        some (res, [pl]) ∧ pl.tzone = q) ∧
    westernHandler tzdb' (some u) (some k) (r :: rest) reqBody =
      westernHandler tzdb (some u) (some k) (r :: rest) reqBody := by
  have hres : ∀ t0 : TzDb,
      resolveTzone t0 (getT (jsOr reqBody (.obj [])) "tz_offset") ds ts
        (dflt (getT (jsOr reqBody (.obj [])) "timezone")
          (.str "Europe/Amsterdam")) = some q := by
    intro t0
    rw [htz]
    rfl
  obtain ⟨y, m, d, hh, mm, hp, hq2, heval⟩ :=
    westernHandler_eval tzdb u k hu hk r rest reqBody ds ts la lo q
      hdate hds htime hts hlat hlon (hres tzdb)
  obtain ⟨y', m', d', hh', mm', hp', hq2', heval'⟩ :=
    westernHandler_eval tzdb' u k hu hk r rest reqBody ds ts la lo q
      hdate hds htime hts hlat hlon (hres tzdb')
  rw [hp] at hp'
  rw [hq2] at hq2'
  simp only [Option.some.injEq, Prod.mk.injEq] at hp' hq2'
  obtain ⟨rfl, rfl, rfl⟩ := hp'
  obtain ⟨rfl, rfl⟩ := hq2'
  exact ⟨⟨_, _, heval, rfl⟩, by rw [heval, heval']⟩

/-- Concrete request for the C2 witness: explicit `tz_offset` 2.5. -/
def reqOverride : JVal := .obj [("date", .str "1981-10-17"),
  ("time", .str "08:55"), ("latitude", .num 52), ("longitude", .num 5),
  ("tz_offset", .num (5 / 2))]

/-- Witness for C2: with `tz_offset: 2.5` the payload's `tzone` is 2.5 and
an empty zone database gives the same outcome as a populated one. -/
theorem numeric_tz_offset_overrides_witness :
    (∃ res pl,
      westernHandler amsTzdb (some "u") (some "k")
        [⟨200, .obj [("ok", .num 1)]⟩] reqOverride = some (res, [pl]) ∧
      pl.tzone = 5 / 2) ∧
    westernHandler (fun _ => none) (some "u") (some "k")
        [⟨200, .obj [("ok", .num 1)]⟩] reqOverride =
      westernHandler amsTzdb (some "u") (some "k")
        [⟨200, .obj [("ok", .num 1)]⟩] reqOverride :=
  numeric_tz_offset_overrides amsTzdb (fun _ => none) "u" "k" (by decide)
    (by decide) ⟨200, .obj [("ok", .num 1)]⟩ [] reqOverride "1981-10-17" "08:55"
    52 5 (5 / 2) rfl (by decide) rfl (by decide) rfl rfl rfl

/-- C10: a request whose `tz_offset` is present but not a number is
accepted without any validation error, the value is ignored, and the
upstream `tzone` is the resolver's computed offset. -/
theorem non_numeric_tz_offset_ignored (tzdb : TzDb) (u k : String)
    (hu : u ≠ "") (hk : k ≠ "") (r : UpResp) (rest : List UpResp)
    (reqBody : JVal) (ds ts : String) (la lo cq : ℚ) (v : JVal)
    (hdate : getT (jsOr reqBody (.obj [])) "date" = .str ds)
    (hds : isValidDateISOStr ds = true)
    (htime : getT (jsOr reqBody (.obj [])) "time" = .str ts)
    (hts : isValidTimeHHMMStr ts = true)
    (hlat : getT (jsOr reqBody (.obj [])) "latitude" = .num la)
    (hlon : getT (jsOr reqBody (.obj [])) "longitude" = .num lo)
    (htz : getT (jsOr reqBody (.obj [])) "tz_offset" = v)
    (hnum : ∀ q' : ℚ, v ≠ .num q')
    (hcomp : getTzOffsetHours tzdb ds ts
      (dflt (getT (jsOr reqBody (.obj [])) "timezone")
        (.str "Europe/Amsterdam")) = some cq) :
    ∃ res pl,
      westernHandler tzdb (some u) (some k) (r :: rest) reqBody =
        some (res, [pl]) ∧ pl.tzone = cq ∧ statusOfW res ≠ 400 := by
  have hres : resolveTzone tzdb (getT (jsOr reqBody (.obj [])) "tz_offset") ds ts
      (dflt (getT (jsOr reqBody (.obj [])) "timezone")
        (.str "Europe/Amsterdam")) = some cq := by
    rw [htz]
    cases v with
    | num q' => exact absurd rfl (hnum q')
    | undefined => exact hcomp
    | null => exact hcomp
    | bool b => exact hcomp
    | str s => exact hcomp
    | arr xs => exact hcomp
    | obj fs => exact hcomp
  obtain ⟨y, m, d, hh, mm, hp, hq2, heval⟩ :=
    westernHandler_eval tzdb u k hu hk r rest reqBody ds ts la lo cq
      hdate hds htime hts hlat hlon hres
  refine ⟨_, _, heval, rfl, ?_⟩
  split
  · simp [statusOfW]
  · split
    · simp [statusOfW]
    · simp [statusOfW]

/-- Concrete request for the C10 witness: `tz_offset` is the string
`"2.0"`. -/
def reqStrOffset : JVal := .obj [("date", .str "1981-10-17"),
  ("time", .str "08:55"), ("latitude", .num 52), ("longitude", .num 5),
  ("tz_offset", .str "2.0")]

/-- Witness for C10: the string offset `"2.0"` is ignored and the resolver's
value 2 is used, with no 400 response. -/
theorem non_numeric_tz_offset_ignored_witness :
    ∃ res pl,
      westernHandler amsTzdb (some "u") (some "k")
        [⟨200, .obj [("ok", .num 1)]⟩] reqStrOffset = some (res, [pl]) ∧
      pl.tzone = 2 ∧ statusOfW res ≠ 400 :=
  non_numeric_tz_offset_ignored amsTzdb "u" "k" (by decide) (by decide)
    ⟨200, .obj [("ok", .num 1)]⟩ [] reqStrOffset "1981-10-17" "08:55" 52 5 2
    (.str "2.0") rfl (by decide) rfl (by decide) rfl rfl rfl
    (fun q' h => by cases h)
    (by
      have hp : parseDateISO "1981-10-17" = some (1981, 10, 17) := by decide
      have hq : parseTimeHHMM "08:55" = some (8, 55) := by decide
      unfold getTzOffsetHours
      rw [hp, hq]
      show some _ = some 2
      have h1 : dateUTC 1981 (10 - 1) 17 8 55 0 = 372156900000 := by decide
      have h2 : dateUTC 1981 (10 - 1) 17 10 55 0 = 372164100000 := by decide
      simp only [amsTzdb, amsRender, h1, h2]
      norm_num [jsRound, Rat.floor])

/-- C5: when the upstream call answers a non-2xx status, or a 200 body
whose `status` field is strictly `false`, the route responds with the
502-class upstream-failure result carrying the upstream status and body,
and exactly one upstream call is made no matter how many more responses
the oracle holds (no retry). -/
theorem upstream_failure_is_502 (tzdb : TzDb) (u k : String)
    (hu : u ≠ "") (hk : k ≠ "") (r : UpResp) (rest : List UpResp)
    (reqBody : JVal) (ds ts : String) (la lo tzq : ℚ)
    (hdate : getT (jsOr reqBody (.obj [])) "date" = .str ds)
    (hds : isValidDateISOStr ds = true)
    (htime : getT (jsOr reqBody (.obj [])) "time" = .str ts)
    (hts : isValidTimeHHMMStr ts = true)
    (hlat : getT (jsOr reqBody (.obj [])) "latitude" = .num la)
    (hlon : getT (jsOr reqBody (.obj [])) "longitude" = .num lo)
    (htzq : resolveTzone tzdb (getT (jsOr reqBody (.obj [])) "tz_offset") ds ts
      (dflt (getT (jsOr reqBody (.obj [])) "timezone") (.str "Europe/Amsterdam")) =
      some tzq) :
    (r.status < 200 ∨ 300 ≤ r.status →
      ∃ pl, westernHandler tzdb (some u) (some k) (r :: rest) reqBody =
        some (.upstreamHttpFail r.status r.data, [pl]) ∧
        statusOfW (.upstreamHttpFail r.status r.data) = 502) ∧
    (¬(r.status < 200 ∨ 300 ≤ r.status) →
      truthy r.data = true → isFalseLit (getT r.data "status") = true →
      ∃ pl, westernHandler tzdb (some u) (some k) (r :: rest) reqBody =
        some (.upstreamRejected r.data, [pl]) ∧
        statusOfW (.upstreamRejected r.data) = 502) := by
  obtain ⟨y, m, d, hh, mm, hp, hq2, heval⟩ :=
    westernHandler_eval tzdb u k hu hk r rest reqBody ds ts la lo tzq
      hdate hds htime hts hlat hlon htzq
  constructor
  · intro hbad
    rw [heval, if_pos hbad]
    exact ⟨_, rfl, rfl⟩
  · intro hok htr hflag
    rw [heval, if_neg hok, if_pos (by rw [htr, hflag]; rfl)]
    exact ⟨_, rfl, rfl⟩

/-- Valid request body reused by several witnesses (explicit numeric
offset, so no zone database is consulted). -/
def reqPlain : JVal := .obj [("date", .str "1981-10-17"),
  ("time", .str "08:55"), ("latitude", .num 52), ("longitude", .num 5),
  ("tz_offset", .num 2)]

/-- Witness for C5: an upstream 401 becomes the 502-class failure carrying
status 401 and the upstream body, with exactly one call made although a
second response was available. -/
theorem upstream_failure_is_502_witness :
    ((401 : ℤ) < 200 ∨ (300 : ℤ) ≤ 401) ∧
    (∃ pl, westernHandler amsTzdb (some "u") (some "k")
        [⟨401, .str "denied"⟩, ⟨200, .obj []⟩] reqPlain =
      some (.upstreamHttpFail 401 (.str "denied"), [pl]) ∧
      statusOfW (.upstreamHttpFail 401 (.str "denied")) = 502) :=
  ⟨by norm_num,
    (upstream_failure_is_502 amsTzdb "u" "k" (by decide) (by decide)
      ⟨401, .str "denied"⟩ [⟨200, .obj []⟩] reqPlain "1981-10-17" "08:55"
      52 5 2 rfl (by decide) rfl (by decide) rfl rfl rfl).1 (by norm_num)⟩

/-- Request with an unrecognized timezone name used by the C7
counterexample. -/
def reqBadZone : JVal := .obj [("date", .str "1981-10-17"),
  ("time", .str "08:55"), ("latitude", .num 52), ("longitude", .num 5),
  ("timezone", .str "Not/AZone")]

/-- Counterexample to C7: a request whose timezone is not a recognized zone
identifier is answered by the generic catch with HTTP 500 (a server
fault), not with any 400-class client-input error. -/
theorem invalid_timezone_counterexample :
    westernHandler amsTzdb (some "u") (some "k")
        [⟨200, .obj [("ok", .num 1)]⟩] reqBadZone =
      some (.serverError, []) ∧
    statusOfW .serverError = 500 := ⟨rfl, rfl⟩

/-- Amended C7: a validation-passing request whose timezone the platform
does not recognize (and with no numeric `tz_offset`) makes the resolver
throw; the route's catch-all surfaces HTTP 500 — a server fault, not a
client-input error — and no upstream call is made. -/
theorem invalid_timezone_yields_500 (tzdb : TzDb) (u k : String)
    (hu : u ≠ "") (hk : k ≠ "") (upstream : List UpResp)
    (reqBody : JVal) (ds ts : String) (la lo : ℚ) (v : JVal)
    (hdate : getT (jsOr reqBody (.obj [])) "date" = .str ds)
    (hds : isValidDateISOStr ds = true)
    (htime : getT (jsOr reqBody (.obj [])) "time" = .str ts)
    (hts : isValidTimeHHMMStr ts = true)
    (hlat : getT (jsOr reqBody (.obj [])) "latitude" = .num la)
    (hlon : getT (jsOr reqBody (.obj [])) "longitude" = .num lo)
    (htz : getT (jsOr reqBody (.obj [])) "tz_offset" = v)
    (hnum : ∀ q' : ℚ, v ≠ .num q')
    (hzone : tzdb (dflt (getT (jsOr reqBody (.obj [])) "timezone")
      (.str "Europe/Amsterdam")) = none) :
    westernHandler tzdb (some u) (some k) upstream reqBody =
      some (.serverError, []) ∧ statusOfW .serverError = 500 := by
  refine ⟨?_, rfl⟩
  obtain ⟨y, m, d, hp⟩ := validDate_parses hds
  obtain ⟨hh, mm, hq⟩ := validTime_parses hts
  have hres : resolveTzone tzdb (getT (jsOr reqBody (.obj [])) "tz_offset") ds ts
      (dflt (getT (jsOr reqBody (.obj [])) "timezone")
        (.str "Europe/Amsterdam")) = none := by
    rw [htz]
    have hcomp : getTzOffsetHours tzdb ds ts
        (dflt (getT (jsOr reqBody (.obj [])) "timezone")
          (.str "Europe/Amsterdam")) = none := by
      unfold getTzOffsetHours
      rw [hp, hq, hzone]
    cases v with
    | num q' => exact absurd rfl (hnum q')
    | undefined => exact hcomp
    | null => exact hcomp
    | bool b => exact hcomp
    | str s => exact hcomp
    | arr xs => exact hcomp
    | obj fs => exact hcomp
  unfold westernHandler
  simp only [truthy_str_of_ne hu, truthy_str_of_ne hk, hdate, htime, hlat, hlon,
    isValidDateISO, hds, isValidTimeHHMM, hts, hp, hq, hres, Bool.not_true,
    Bool.false_eq_true, if_false, reduceCtorEq]

/-- Witness for the amended C7. -/
theorem invalid_timezone_yields_500_witness :
    westernHandler amsTzdb (some "u") (some "k") [] reqBadZone =
      some (.serverError, []) ∧ statusOfW .serverError = 500 :=
  invalid_timezone_yields_500 amsTzdb "u" "k" (by decide) (by decide) []
    reqBadZone "1981-10-17" "08:55" 52 5 .undefined rfl (by decide) rfl (by decide)
    rfl rfl rfl (fun q' h => by cases h) rfl

/-- Out-of-range request used by the C9 counterexample: the date names the
non-existent 31 February and the latitude 1000 is far outside [-90, 90]. -/
def reqOutOfRange : JVal := .obj [("date", .str "2021-02-31"),
  ("time", .str "08:55"), ("latitude", .num 1000), ("longitude", .num 5),
  ("tz_offset", .num 2)]

/-- Counterexample to C9: the request with date `2021-02-31` (not a real
calendar instant) and latitude 1000 (outside [-90, 90]) passes validation,
the upstream is called with it, and the route answers 200 — it is not
rejected with any 400-class error. -/
theorem validation_gap_counterexample :
    westernHandler amsTzdb (some "u") (some "k")
        [⟨200, .obj [("ok", .num 1)]⟩] reqOutOfRange =
      some (.success (.obj [("ok", .num 1)]) (.str "") (.str "2021-02-31")
          (.str "08:55") 1000 5 (.str "Europe/Amsterdam") 2,
        [{ day := 31, month := 2, year := 2021, hour := 8, min := 55,
           lat := 1000, lon := 5, tzone := 2 }]) ∧
    ((1000 : ℚ) < -90 ∨ (90 : ℚ) < 1000) := ⟨rfl, by norm_num⟩

/-- Amended C9: the validation step checks only syntax — date matching
`\d{4}-\d{2}-\d{2}`, time matching `\d{2}:\d{2}`, latitude and longitude
being numbers.  Every request meeting those checks proceeds (no 400-class
response), regardless of coordinate ranges or whether the date denotes a
real calendar instant. -/
theorem validation_is_syntactic_only (tzdb : TzDb) (u k : String)
    (hu : u ≠ "") (hk : k ≠ "") (r : UpResp) (rest : List UpResp)
    (reqBody : JVal) (ds ts : String) (la lo tzq : ℚ)
    (hdate : getT (jsOr reqBody (.obj [])) "date" = .str ds)
    (hds : isValidDateISOStr ds = true)
    (htime : getT (jsOr reqBody (.obj [])) "time" = .str ts)
    (hts : isValidTimeHHMMStr ts = true)
    (hlat : getT (jsOr reqBody (.obj [])) "latitude" = .num la)
    (hlon : getT (jsOr reqBody (.obj [])) "longitude" = .num lo)
    (htzq : resolveTzone tzdb (getT (jsOr reqBody (.obj [])) "tz_offset") ds ts
      (dflt (getT (jsOr reqBody (.obj [])) "timezone") (.str "Europe/Amsterdam")) =
      some tzq) :
    ∃ res pl,
      westernHandler tzdb (some u) (some k) (r :: rest) reqBody =
        some (res, [pl]) ∧ statusOfW res ≠ 400 := by
  obtain ⟨y, m, d, hh, mm, hp, hq2, heval⟩ :=
    westernHandler_eval tzdb u k hu hk r rest reqBody ds ts la lo tzq
      hdate hds htime hts hlat hlon htzq
  refine ⟨_, _, heval, ?_⟩
  split
  · simp [statusOfW]
  · split
    · simp [statusOfW]
    · simp [statusOfW]

/-- Witness for the amended C9, at the out-of-range request. -/
theorem validation_is_syntactic_only_witness :
    ∃ res pl,
      westernHandler amsTzdb (some "u") (some "k")
        [⟨200, .obj [("ok", .num 1)]⟩] reqOutOfRange =
        some (res, [pl]) ∧ statusOfW res ≠ 400 :=
  validation_is_syntactic_only amsTzdb "u" "k" (by decide) (by decide)
    ⟨200, .obj [("ok", .num 1)]⟩ [] reqOutOfRange "2021-02-31" "08:55" 1000 5 2
    rfl (by decide) rfl (by decide) rfl rfl rfl

/-- Counterexample to C8: an upstream 200 response whose body is not valid
JSON is returned as a SUCCESS (the parse failure is swallowed and the body
wrapped as `{ raw: text }`), not treated as an upstream failure. -/
theorem unparsable_body_counterexample :
    callAstrologyApi (fun _ => none) ⟨200, "not json"⟩ =
      .ok (.obj [("raw", .str "not json")]) ∧
    apiStatusOf (.ok (.obj [("raw", .str "not json")])) = 200 := ⟨rfl, rfl⟩

/-- Amended C8: an unparsable upstream body is wrapped as `{ raw: text }`;
combined with a non-success HTTP status this body rides on the 502-class
failure, but with a success status the call returns it as a success — the
parse failure alone never produces an error. -/
theorem unparsable_body_behaviour (jsonParse : String → Option JVal)
    (r : FetchResp) (hparse : jsonParse r.text = none) :
    (¬(200 ≤ r.status ∧ r.status ≤ 299) →
      callAstrologyApi jsonParse r =
        .httpFail r.status (.obj [("raw", .str r.text)]) ∧
      apiStatusOf (.httpFail r.status (.obj [("raw", .str r.text)])) = 502) ∧
    (200 ≤ r.status ∧ r.status ≤ 299 →
      callAstrologyApi jsonParse r = .ok (.obj [("raw", .str r.text)])) := by
  have hok : ∀ b : Bool, fetchOk r = b →
      (200 ≤ r.status ∧ r.status ≤ 299) = (b = true) := by
    intro b hb
    rw [← hb]
    simp [fetchOk]
  unfold callAstrologyApi
  rw [hparse]
  constructor
  · intro hbad
    have hfo : fetchOk r = false := by
      cases hfo : fetchOk r with
      | false => rfl
      | true =>
        exact absurd (by rw [hok true hfo]) hbad
    rw [hfo]
    exact ⟨rfl, rfl⟩
  · intro hgood
    have hfo : fetchOk r = true := by
      cases hfo : fetchOk r with
      | true => rfl
      | false =>
        rw [hok false hfo] at hgood
        exact absurd hgood (by simp)
    rw [hfo]
    rfl

/-- Witness for the amended C8 at a 502 upstream status with a non-JSON
body. -/
theorem unparsable_body_behaviour_witness :
    jsonParseNone "oops" = none ∧
    (¬((200 : ℤ) ≤ 502 ∧ (502 : ℤ) ≤ 299) →
      callAstrologyApi jsonParseNone ⟨502, "oops"⟩ =
        .httpFail 502 (.obj [("raw", .str "oops")]) ∧
      apiStatusOf (.httpFail 502 (.obj [("raw", .str "oops")])) = 502) ∧
    (((200 : ℤ) ≤ 502 ∧ (502 : ℤ) ≤ 299) →
      callAstrologyApi jsonParseNone ⟨502, "oops"⟩ =
        .ok (.obj [("raw", .str "oops")])) :=
  ⟨rfl, unparsable_body_behaviour jsonParseNone ⟨502, "oops"⟩ rfl⟩

/-- C3: whenever the extracted planet list holds two or more entries
mapping to the same canonical name, the normalizer's output holds exactly
one entry of that name, namely the first occurrence with all its fields,
and the output is a subsequence of the pre-deduplication list (insertion
order of first occurrences is preserved). -/
theorem normalizeBodies_dedup (raw : JVal) (ps : List JVal)
    (bs out : List NormBody) (n : String)
    (hlist : planetListVal raw = .arr ps)
    (hbuild : buildBodies ps = some bs)
    (hout : normalizeBodies raw = some out)
    (hdup : 2 ≤ (bs.filter (fun b => b.name == n)).length) :
    out.Sublist bs ∧
    out.find? (fun b => b.name == n) = bs.find? (fun b => b.name == n) ∧
    (out.filter (fun b => b.name == n)).length = 1 := by
  have hout' : out = dedupBodies [] bs := by
    unfold normalizeBodies at hout
    rw [hlist] at hout
    have hout2 : (buildBodies ps).map (dedupBodies []) = some out := hout
    rw [hbuild] at hout2
    simpa using hout2.symm
  obtain ⟨dl, hdl, hsub⟩ := dedupBodies_sublist bs []
  have hfind : out.find? (fun b => b.name == n) = bs.find? (fun b => b.name == n) := by
    rw [hout', dedupBodies_find? n bs []]
    simp
  refine ⟨?_, hfind, ?_⟩
  · rw [hout', hdl]
    simpa using hsub
  · have hpw : out.Pairwise (fun a b => a.name ≠ b.name) := by
      rw [hout']
      exact dedupBodies_pairwise bs [] List.Pairwise.nil
    have hle := filter_name_length_le_one n out hpw
    have hpos : 0 < (bs.filter (fun b => b.name == n)).length := by omega
    obtain ⟨b0, hb0⟩ := List.exists_mem_of_length_pos hpos
    have hb0' := List.mem_filter.mp hb0
    have hfs : bs.find? (fun b => b.name == n) ≠ none := by
      rw [Ne, List.find?_eq_none]
      intro hall
      exact absurd hb0'.2 (by simp [hall b0 hb0'.1])
    obtain ⟨w, hw⟩ := Option.ne_none_iff_exists'.mp hfs
    have hwo : w ∈ out := List.mem_of_find?_eq_some (hfind.trans hw)
    have hwq := List.find?_some (hfind.trans hw)
    have hmemf : w ∈ out.filter (fun b => b.name == n) :=
      List.mem_filter.mpr ⟨hwo, hwq⟩
    have : 0 < (out.filter (fun b => b.name == n)).length :=
      List.length_pos.mpr (List.ne_nil_of_mem hmemf)
    omega

/-- Upstream planet list with an alias collision, for the C3 witness. -/
def psDup : List JVal := [.obj [("name", .str "Rahu"), ("sign", .str "Aries")],
  .obj [("name", .str "North Node"), ("sign", .str "Taurus")],
  .obj [("name", .str "Sun"), ("sign", .str "Libra")]]

/-- Upstream body for the C3 witness. -/
def rawDup : JVal := .obj [("planets", .arr psDup)]

/-- The pre-deduplication body list built from `psDup`. -/
def bsDup : List NormBody :=
  [{ name := "NorthNode", sign := .str "Aries", house := .null, degree := .null,
     retro := false },
   { name := "NorthNode", sign := .str "Taurus", house := .null, degree := .null,
     retro := false },
   { name := "Sun", sign := .str "Libra", house := .null, degree := .null,
     retro := false }]

/-- The normalizer output for `rawDup`: one `NorthNode` (the first one). -/
def outDup : List NormBody :=
  [{ name := "NorthNode", sign := .str "Aries", house := .null, degree := .null,
     retro := false },
   { name := "Sun", sign := .str "Libra", house := .null, degree := .null,
     retro := false }]

/-- Witness for C3: `Rahu` and `North Node` collide on `NorthNode`; the
output keeps exactly the first with its `Aries` sign. -/
theorem normalizeBodies_dedup_witness :
    planetListVal rawDup = .arr psDup ∧
    buildBodies psDup = some bsDup ∧
    normalizeBodies rawDup = some outDup ∧
    2 ≤ (bsDup.filter (fun b => b.name == "NorthNode")).length ∧
    (outDup.Sublist bsDup ∧
      outDup.find? (fun b => b.name == "NorthNode") =
        bsDup.find? (fun b => b.name == "NorthNode") ∧
      (outDup.filter (fun b => b.name == "NorthNode")).length = 1) :=
  ⟨rfl, rfl, rfl, by decide,
    normalizeBodies_dedup rawDup psDup bsDup outDup "NorthNode" rfl rfl rfl
      (by decide)⟩

theorem mapHouses_mem : ∀ {hs : List JVal} {l : List NormHouse},
    mapHouses hs = some l → ∀ {h : JVal}, h ∈ hs →
    ∀ {nh : NormHouse}, mkHouseOpt h = some nh → nh ∈ l := by
  intro hs
  induction hs with
  | nil =>
    intro l _ h hh
    exact absurd hh (List.not_mem_nil h)
  | cons h0 rest ih =>
    intro l hm h hh nh hmk
    unfold mapHouses at hm
    cases hk : mkHouseOpt h0 with
    | none =>
      rw [hk] at hm
      cases hm
    | some nh0 =>
      rw [hk] at hm
      cases hr : mapHouses rest with
      | none =>
        rw [hr] at hm
        cases hm
      | some l0 =>
        rw [hr] at hm
        simp only [Option.map_some'] at hm
        have hl := Option.some.inj hm
        subst hl
        rcases List.mem_cons.mp hh with rfl | hh'
        · rw [hk] at hmk
          exact (Option.some.inj hmk) ▸ List.mem_cons_self nh0 l0
        · exact List.mem_cons_of_mem _ (ih hr hh' hmk)

/-- C4: the houses output is exactly the mapped entries filtered to those
with a non-null resolved house number: no output entry lacks a house
number, and every input entry whose house number resolves appears in the
output. -/
theorem normalizeHouses_filter (raw : JVal) (hs : List JVal)
    (out : List NormHouse)
    (hlist : jsOr (getFq raw "houses") (.arr []) = .arr hs)
    (hout : normalizeHouses raw = some out) :
    (∃ l, mapHouses hs = some l ∧
      out = l.filter (fun nh => !(isNullV nh.house))) ∧
    (∀ nh ∈ out, isNullV nh.house = false) ∧
    (∀ h ∈ hs, ∀ nh, mkHouseOpt h = some nh → isNullV nh.house = false →
      nh ∈ out) := by
  unfold normalizeHouses at hout
  rw [hlist] at hout
  have hout2 : (mapHouses hs).map
      (fun l => l.filter (fun nh => !(isNullV nh.house))) = some out := hout
  clear hout
  cases hm : mapHouses hs with
  | none =>
    rw [hm] at hout2
    cases hout2
  | some l =>
    rw [hm] at hout2
    simp only [Option.map_some', Option.some.injEq] at hout2
    refine ⟨⟨l, rfl, hout2.symm⟩, ?_, ?_⟩
    · intro nh hnh
      rw [← hout2] at hnh
      have := (List.mem_filter.mp hnh).2
      simpa using this
    · intro h hh nh hmk hnn
      rw [← hout2]
      exact List.mem_filter.mpr ⟨mapHouses_mem hm hh hmk, by simp [hnn]⟩

/-- Upstream houses list for the C4 witness: one entry with a house
number, one without any. -/
def hsW : List JVal := [.obj [("house", .num 1), ("sign", .str "Aries")],
  .obj [("sign", .str "Taurus")]]

/-- Upstream body for the C4 witness. -/
def rawHW : JVal := .obj [("houses", .arr hsW)]

/-- The houses output for `rawHW`: the numberless entry is gone. -/
def outW : List NormHouse :=
  [{ house := .num 1, sign := .str "Aries", start_degree := .null,
     end_degree := .null }]

/-- Witness for C4. -/
theorem normalizeHouses_filter_witness :
    jsOr (getFq rawHW "houses") (.arr []) = .arr hsW ∧
    normalizeHouses rawHW = some outW ∧
    ((∃ l, mapHouses hsW = some l ∧
        outW = l.filter (fun nh => !(isNullV nh.house))) ∧
      (∀ nh ∈ outW, isNullV nh.house = false) ∧
      (∀ h ∈ hsW, ∀ nh, mkHouseOpt h = some nh → isNullV nh.house = false →
        nh ∈ outW)) :=
  ⟨rfl, rfl, normalizeHouses_filter rawHW hsW outW rfl rfl⟩

theorem cacheGet_cacheSet (m : Cache) (ck : String) (v : CacheEntry) :
    cacheGet (cacheSet m ck v) ck = some v := by
  induction m with
  | nil => simp [cacheSet, cacheGet]
  | cons p rest ih =>
    obtain ⟨k', v'⟩ := p
    by_cases hk : (k' == ck) = true
    · simp [cacheSet, hk, cacheGet]
    · rw [Bool.not_eq_true] at hk
      simp [cacheSet, hk, cacheGet, ih]

/-- C6: if a request was served fresh (upstream called once, result
stored), an identical request whose arrival time keeps the entry's age
under the 30-day window is served from the cache — the stored chart comes
back annotated `cached: true`, the cache is untouched and no upstream call
happens.  Once the age is no longer under the window the entry is
bypassed: the route goes back to the upstream (one call). -/
theorem cache_hit_within_window (numToStr : ℚ → String) (u k : String)
    (hu : u ≠ "") (hk : k ≠ "") (t1 t2 : ℤ)
    (up1 up2 : List (Except JVal JVal)) (cache0 cache1 : Cache)
    (reqBody : JVal) (c : Clean)
    (h1 : westernCached numToStr (some u) (some k) t1 up1 cache0 reqBody =
      some (.served c false, cache1, 1)) :
    (t2 - t1 < CACHE_TTL_MS →
      westernCached numToStr (some u) (some k) t2 up2 cache1 reqBody =
        some (.served c true, cache1, 0)) ∧
    (¬(t2 - t1 < CACHE_TTL_MS) → ∀ r2 rest2, up2 = r2 :: rest2 →
      ∃ res cache2,
        westernCached numToStr (some u) (some k) t2 up2 cache1 reqBody =
          some (res, cache2, 1)) := by
  have main : ∀ cache1,
      truthy (getT reqBody "birth") = true →
      firstMissing (getT reqBody "birth") = none →
      cache1 = cacheSet cache0
        (makeCacheKey numToStr (getT reqBody "birth")
          (dflt (getT reqBody "house_type") (.str "placidus")))
        { savedAt := t1, data := c } →
      (t2 - t1 < CACHE_TTL_MS →
        westernCached numToStr (some u) (some k) t2 up2 cache1 reqBody =
          some (.served c true, cache1, 0)) ∧
      (¬(t2 - t1 < CACHE_TTL_MS) → ∀ r2 rest2, up2 = r2 :: rest2 →
        ∃ res cache2,
          westernCached numToStr (some u) (some k) t2 up2 cache1 reqBody =
            some (res, cache2, 1)) := by
    intro cache1 hb hm hc1
    constructor
    · intro hlt
      unfold westernCached
      simp only [truthy_str_of_ne hu, truthy_str_of_ne hk, Bool.not_true,
        Bool.or_self, Bool.false_eq_true, if_false, hb, hm]
      rw [hc1, cacheGet_cacheSet]
      simp only [if_pos hlt]
    · intro hnlt r2 rest2 hup2
      subst hup2
      unfold westernCached
      simp only [truthy_str_of_ne hu, truthy_str_of_ne hk, Bool.not_true,
        Bool.or_self, Bool.false_eq_true, if_false, hb, hm]
      rw [hc1, cacheGet_cacheSet]
      simp only [if_neg hnlt]
      cases r2 with
      | error details => exact ⟨_, _, rfl⟩
      | ok raw =>
        cases hnb : normalizeBodies raw with
        | none =>
          simp only [hnb]
          exact ⟨_, _, rfl⟩
        | some bs =>
          cases hnh : normalizeHouses raw with
          | none =>
            simp only [hnb, hnh]
            exact ⟨_, _, rfl⟩
          | some hs2 =>
            simp only [hnb, hnh]
            exact ⟨_, _, rfl⟩
  unfold westernCached at h1
  simp only [truthy_str_of_ne hu, truthy_str_of_ne hk, Bool.not_true,
    Bool.or_self, Bool.false_eq_true, if_false] at h1
  split at h1
  · exact absurd h1 (by simp)
  next hbirth =>
    split at h1
    · exact absurd h1 (by simp)
    next hmiss =>
      have hb : truthy (getT reqBody "birth") = true := by
        simpa using hbirth
      split at h1
      next e hcg =>
        split at h1
        · exact absurd h1 (by simp)
        next hfresh =>
          split at h1
          · exact absurd h1 (by cases h1)
          · exact absurd h1 (by simp)
          next raw =>
            split at h1
            next bs hs2 hnb hnh =>
              simp only [Option.some.injEq, Prod.mk.injEq,
                CResult.served.injEq] at h1
              obtain ⟨⟨hcl, -⟩, hcache, -⟩ := h1
              exact main cache1 hb hmiss (by rw [← hcache, hcl])
            next hnb hnh => exact absurd h1 (by simp)
      next hcg =>
        split at h1
        · exact absurd h1 (by cases h1)
        · exact absurd h1 (by simp)
        next raw =>
          split at h1
          next bs hs2 hnb hnh =>
            simp only [Option.some.injEq, Prod.mk.injEq,
              CResult.served.injEq] at h1
            obtain ⟨⟨hcl, -⟩, hcache, -⟩ := h1
            exact main cache1 hb hmiss (by rw [← hcache, hcl])
          next hnb hnh => exact absurd h1 (by simp)

/-- Witness for C1 at the spec's own end-to-end example date. -/
theorem getTzOffsetHours_meets_spec_witness :
    amsTzdb (.str "Europe/Amsterdam") = some amsRender ∧
    isValidDateISOStr "1981-10-17" = true ∧
    isValidTimeHHMMStr "08:55" = true ∧
    ∃ y m d hh mm,
      parseDateISO "1981-10-17" = some (y, m, d) ∧
      parseTimeHHMM "08:55" = some (hh, mm) ∧
      getTzOffsetHours amsTzdb "1981-10-17" "08:55" (.str "Europe/Amsterdam") =
        some (specResolveOffsetHours amsRender y m d hh mm) :=
  ⟨rfl, by decide, by decide,
    getTzOffsetHours_meets_spec amsTzdb "1981-10-17" "08:55"
      (.str "Europe/Amsterdam") amsRender rfl (by decide) (by decide)⟩

/-- Number formatting stub for the cache-key template in witnesses. -/
def numToStr0 : ℚ → String := fun _ => "q"

/-- Birth object with all eight required fields, for the C6 witness. -/
def birthW : JVal := .obj [("day", .num 17), ("month", .num 10),
  ("year", .num 1981), ("hour", .num 8), ("min", .num 55), ("lat", .num 52),
  ("lon", .num 5), ("tzone", .num 2)]

/-- Request body for the C6 witness. -/
def reqC : JVal := .obj [("name", .str "Test"), ("birth", birthW)]

/-- Upstream body for the C6 witness (empty planet and house lists). -/
def rawW : JVal := .obj [("planets", .arr []), ("houses", .arr [])]

/-- The normalized chart the C6 witness stores and replays. -/
def cleanW : Clean :=
  { name := .str "Test"
    birth := spreadBirth birthW (.str "placidus")
    bodies := []
    houses := []
    aspects := .arr [] }

/-- The cache contents after the C6 witness's first request. -/
def cacheW : Cache :=
  [("q-q-q-q-q-q-q-q-placidus", { savedAt := 0, data := cleanW })]

/-- Witness for C6: a first request at time 0 stores the chart; the second
identical request at time 1000 (inside the 30-day window) is served from
the cache with `cached: true` and zero upstream calls. -/
theorem cache_hit_within_window_witness :
    westernCached numToStr0 (some "u") (some "k") 0 [.ok rawW] [] reqC =
      some (.served cleanW false, cacheW, 1) ∧
    (((1000 : ℤ) - 0 < CACHE_TTL_MS →
      westernCached numToStr0 (some "u") (some "k") 1000 [.ok rawW] cacheW reqC =
        some (.served cleanW true, cacheW, 0)) ∧
     (¬((1000 : ℤ) - 0 < CACHE_TTL_MS) →
      ∀ r2 rest2, ([.ok rawW] : List (Except JVal JVal)) = r2 :: rest2 →
      ∃ res cache2,
        westernCached numToStr0 (some "u") (some "k") 1000 [.ok rawW] cacheW reqC =
          some (res, cache2, 1))) :=
  ⟨rfl, cache_hit_within_window numToStr0 "u" "k" (by decide) (by decide) 0 1000
    [.ok rawW] [.ok rawW] [] cacheW reqC cleanW rfl⟩

end PureChart
